import Mathlib

/-!
Verification of the vault record program: record and instruction codecs,
error taxonomy, and the three instruction handlers of the processor
(initialization, authority transfer, account close), embedded shallowly.
Machine bytes are `Fin 256`, identities (`Pubkey`) are 32-byte vectors
modelled as functions `Fin 32 → Fin 256`, balances (lamports) are `Nat`
with 64-bit overflow made explicit in `checked_add`.
-/

namespace Vault

/-- A machine byte. -/
abbrev Byte := Fin 256

/-- A 32-byte public identity (Solana `Pubkey`). -/
abbrev Pubkey := Fin 32 → Byte

/-- Host-level errors (`solana_program::program_error::ProgramError`),
restricted to the variants this program produces. `Custom n` carries a
program-defined numeric code. -/
inductive ProgramError where
  | Custom : Nat → ProgramError
  | MissingRequiredSignature : ProgramError
  | IncorrectProgramId : ProgramError
  | AccountAlreadyInitialized : ProgramError
  | UninitializedAccount : ProgramError
  | NotEnoughAccountKeys : ProgramError
  | BorshIoError : ProgramError
deriving DecidableEq, Repr

deriving instance DecidableEq for Except

/-- Domain errors of the program (`error.rs`, `VaultError`). -/
inductive VaultError where
  | IncorrectAuthority : VaultError
  | Overflow : VaultError
deriving DecidableEq, Repr

/-- The Rust enum discriminant of a `VaultError` (`e as u32`). -/
def VaultError.discriminant : VaultError → Nat
  | .IncorrectAuthority => 0
  | .Overflow => 1

/-- `impl From<VaultError> for ProgramError`: wrap the discriminant as a
custom error code. -/
def VaultError.toProgramError (e : VaultError) : ProgramError :=
  .Custom e.discriminant

/-- The persisted vault record (`state.rs`, `VaultRecord`): a version
byte, the authority identity, and the securities-intermediary (custodian)
identity `dart`. -/
structure VaultRecord where
  version : Byte
  authority : Pubkey
  dart : Pubkey
deriving DecidableEq

namespace VaultRecord

/-- `VaultRecord::CURRENT_VERSION`. -/
def CURRENT_VERSION : Byte := 1

/-- `VaultRecord::LEN`: packed record size, 1 + 32 + 32. -/
def LEN : Nat := 65

/-- `IsInitialized for VaultRecord`: the record counts as initialized
exactly when its version equals the current version. -/
def is_initialized (r : VaultRecord) : Bool :=
  r.version == CURRENT_VERSION

end VaultRecord

/-- The bytes of a 32-byte identity in order. -/
def pubkeyBytes (k : Pubkey) : List Byte := List.ofFn k

/-- Borsh serialization of a record: version byte, then the 32 authority
bytes, then the 32 custodian bytes. -/
def VaultRecord.encode (r : VaultRecord) : List Byte :=
  r.version :: (pubkeyBytes r.authority ++ pubkeyBytes r.dart)

/-- Read one byte from the input (borsh `u8` deserialization); fails on
empty input. -/
def readByte : List Byte → Except ProgramError (Byte × List Byte)
  | [] => .error .BorshIoError
  | b :: rest => .ok (b, rest)

/-- Read a 32-byte identity from the input (borsh `[u8; 32]`
deserialization); fails when fewer than 32 bytes remain. -/
def readPubkey (l : List Byte) : Except ProgramError (Pubkey × List Byte) :=
  if 32 ≤ l.length then
    .ok (fun i => (l.take 32).getD i.val 0, l.drop 32)
  else .error .BorshIoError

/-- Borsh `try_from_slice` for `VaultRecord`: read the three fields in
order and require that the whole input is consumed. -/
def VaultRecord.decode (l : List Byte) : Except ProgramError VaultRecord :=
  match readByte l with
  | .error e => .error e
  | .ok (version, l1) =>
    match readPubkey l1 with
    | .error e => .error e
    | .ok (authority, l2) =>
      match readPubkey l2 with
      | .error e => .error e
      | .ok (dart, l3) =>
        if l3 = [] then .ok ⟨version, authority, dart⟩
        else .error .BorshIoError

/-- The instructions supported by the program (`instruction.rs`). -/
inductive VaultInstruction where
  | Initialize : VaultInstruction
  | TransferAuthority : VaultInstruction
  | CloseAccount : VaultInstruction
deriving DecidableEq, Repr

/-- The borsh enum tag of each instruction variant. -/
def VaultInstruction.tag : VaultInstruction → Byte
  | .Initialize => 0
  | .TransferAuthority => 1
  | .CloseAccount => 2

/-- Borsh serialization of an instruction: the single tag byte, no
payload. -/
def VaultInstruction.encode (i : VaultInstruction) : List Byte := [i.tag]

/-- Which instruction a tag byte selects, if any. -/
def tagToInstruction (b : Byte) : Option VaultInstruction :=
  if b.val = 0 then some .Initialize
  else if b.val = 1 then some .TransferAuthority
  else if b.val = 2 then some .CloseAccount
  else none

/-- Borsh `try_from_slice` for `VaultInstruction`: read the tag byte,
reject unknown tags, and require that no input bytes remain. -/
def VaultInstruction.decode (l : List Byte) : Except ProgramError VaultInstruction :=
  match l with
  | [] => .error .BorshIoError
  | b :: rest =>
    match tagToInstruction b with
    | none => .error .BorshIoError
    | some i => if rest = [] then .ok i else .error .BorshIoError

/-- The view of one account that the host hands the program
(`AccountInfo`): its identity, whether a verified signature was presented
for it in this call, the owning program, its balance, and its data
buffer. -/
structure AccountInfo where
  key : Pubkey
  is_signer : Bool
  owner : Pubkey
  lamports : Nat
  data : List Byte
deriving DecidableEq

/-- `next_account_info` on the account iterator: the i-th account of the
ordered list, or `NotEnoughAccountKeys`. -/
def nextAccount (accounts : List AccountInfo) (i : Nat) :
    Except ProgramError AccountInfo :=
  match accounts.get? i with
  | none => .error .NotEnoughAccountKeys
  | some a => .ok a

/-- `validate_signer` (`processor.rs`): fail with `IncorrectAuthority`
when the account's key is not the expected one, else with
`MissingRequiredSignature` when the account did not sign, else succeed. -/
def validate_signer (account : AccountInfo) (key : Pubkey) :
    Except ProgramError Unit :=
  if key ≠ account.key then .error VaultError.IncorrectAuthority.toProgramError
  else if !account.is_signer then .error .MissingRequiredSignature
  else .ok ()

/-- `u64::checked_add` on balances: `none` when the sum does not fit in
64 bits. -/
def checked_add (a b : Nat) : Option Nat :=
  if a + b < 2 ^ 64 then some (a + b) else none

/-- `borsh::to_writer(&mut data[..], &record)`: serialize the record into
the front of the buffer, failing when the buffer is too short and keeping
any bytes past the written region. -/
def writeRecord (buf : List Byte) (r : VaultRecord) :
    Except ProgramError (List Byte) :=
  let bytes := r.encode
  if bytes.length ≤ buf.length then .ok (bytes ++ buf.drop bytes.length)
  else .error .BorshIoError

/-- `Processor::process_initialize`: check the record slot's owner and the
custodian's signature, require the stored record uninitialized, then write
the freshly initialized record. Returns the updated account list. -/
def processInitialize (program_id : Pubkey) (accounts : List AccountInfo) :
    Except ProgramError (List AccountInfo) :=
  match nextAccount accounts 0, nextAccount accounts 1, nextAccount accounts 2 with
  | .error e, _, _ => .error e
  | _, .error e, _ => .error e
  | _, _, .error e => .error e
  | .ok pda, .ok dart, .ok authority =>
    if pda.owner ≠ program_id then .error .IncorrectProgramId
    else if !dart.is_signer then .error .MissingRequiredSignature
    else
      match VaultRecord.decode pda.data with
      | .error e => .error e
      | .ok record =>
        if record.is_initialized then .error .AccountAlreadyInitialized
        else
          let record' : VaultRecord :=
            { record with
              dart := dart.key
              authority := authority.key
              version := VaultRecord.CURRENT_VERSION }
          match writeRecord pda.data record' with
          | .error e => .error e
          | .ok data' => .ok (accounts.set 0 { pda with data := data' })

/-- `Processor::transfer_authority`: check owner, decode the record,
require it initialized, validate the custodian then the current authority,
and persist the record with its authority replaced by the new authority's
key. Returns the updated account list. -/
def transfer_authority (program_id : Pubkey) (accounts : List AccountInfo) :
    Except ProgramError (List AccountInfo) :=
  match nextAccount accounts 0, nextAccount accounts 1,
      nextAccount accounts 2, nextAccount accounts 3 with
  | .error e, _, _, _ => .error e
  | _, .error e, _, _ => .error e
  | _, _, .error e, _ => .error e
  | _, _, _, .error e => .error e
  | .ok pda, .ok dart, .ok authority, .ok new_authority =>
    if pda.owner ≠ program_id then .error .IncorrectProgramId
    else
      match VaultRecord.decode pda.data with
      | .error e => .error e
      | .ok record =>
        if !record.is_initialized then .error .UninitializedAccount
        else
          match validate_signer dart record.dart with
          | .error e => .error e
          | .ok _ =>
            match validate_signer authority record.authority with
            | .error e => .error e
            | .ok _ =>
              let record' : VaultRecord := { record with authority := new_authority.key }
              match writeRecord pda.data record' with
              | .error e => .error e
              | .ok data' => .ok (accounts.set 0 { pda with data := data' })

/-- `Processor::close_account`: check owner, decode the record, require it
initialized, validate both signers, zero the record slot's balance and
credit it to the authority with an overflow check, then write the record
back. Returns the updated account list. -/
def close_account (program_id : Pubkey) (accounts : List AccountInfo) :
    Except ProgramError (List AccountInfo) :=
  match nextAccount accounts 0, nextAccount accounts 1, nextAccount accounts 2 with
  | .error e, _, _ => .error e
  | _, .error e, _ => .error e
  | _, _, .error e => .error e
  | .ok pda, .ok dart, .ok authority =>
    if pda.owner ≠ program_id then .error .IncorrectProgramId
    else
      match VaultRecord.decode pda.data with
      | .error e => .error e
      | .ok record =>
        if !record.is_initialized then .error .UninitializedAccount
        else
          match validate_signer dart record.dart with
          | .error e => .error e
          | .ok _ =>
            match validate_signer authority record.authority with
            | .error e => .error e
            | .ok _ =>
              let authority_starting_lamports := authority.lamports
              let pda_lamports := pda.lamports
              let pda' := { pda with lamports := 0 }
              match checked_add authority_starting_lamports pda_lamports with
              | none => .error VaultError.Overflow.toProgramError
              | some v =>
                let authority' := { authority with lamports := v }
                match writeRecord pda'.data record with
                | .error e => .error e
                | .ok data' =>
                  .ok ((accounts.set 0 { pda' with data := data' }).set 2 authority')

/-- `Processor::process_instruction`: decode the instruction bytes and
dispatch to the matching handler. -/
def process_instruction (program_id : Pubkey) (accounts : List AccountInfo)
    (input : List Byte) : Except ProgramError (List AccountInfo) :=
  match VaultInstruction.decode input with
  | .error e => .error e
  | .ok .Initialize => processInitialize program_id accounts
  | .ok .TransferAuthority => transfer_authority program_id accounts
  | .ok .CloseAccount => close_account program_id accounts

/-- The host runtime's all-or-nothing commit of one invocation: the
accounts after the call are the handler's output on success and the
original accounts on failure (a failed instruction's writes are
discarded). -/
def commit (orig : List AccountInfo)
    (r : Except ProgramError (List AccountInfo)) : List AccountInfo :=
  match r with
  | .ok l => l
  | .error _ => orig

/-- A constant identity: every one of the 32 bytes equals `n`. -/
def constKey (n : Byte) : Pubkey := fun _ => n

/-- A concrete initialized record used for concrete evaluations. -/
def exampleRecord : VaultRecord :=
  { version := VaultRecord.CURRENT_VERSION
    authority := constKey 99
    dart := constKey 66 }

/-- The program identity of the concrete examples. -/
def examplePid : Pubkey := constKey 7

/-- A concrete record slot owned by `examplePid`, holding the encoding of
`exampleRecord` and a balance of 1000. -/
def examplePda : AccountInfo :=
  { key := constKey 1, is_signer := false, owner := constKey 7
    lamports := 1000, data := exampleRecord.encode }

/-- The custodian account of the examples, signer flag unset. -/
def exampleDart : AccountInfo :=
  { key := constKey 66, is_signer := false, owner := constKey 0
    lamports := 0, data := [] }

/-- The custodian account of the examples, signer flag set. -/
def exampleDartSigned : AccountInfo :=
  { exampleDart with is_signer := true }

/-- The stored authority's account, signer flag set, balance 500. -/
def exampleAuthority : AccountInfo :=
  { key := constKey 99, is_signer := true, owner := constKey 0
    lamports := 500, data := [] }

/-- The stored authority's account with a balance one below the 64-bit
limit, to drive the close-account addition over the representable range. -/
def exampleRichAuthority : AccountInfo :=
  { exampleAuthority with lamports := 2 ^ 64 - 1 }

/-- A fresh account to become the new authority in a transfer. -/
def exampleNewAuthority : AccountInfo :=
  { key := constKey 42, is_signer := false, owner := constKey 0
    lamports := 0, data := [] }

/-- The account list a successful example transfer produces. -/
def exampleTransferResult : List AccountInfo :=
  { examplePda with
    data := VaultRecord.encode
      { exampleRecord with authority := exampleNewAuthority.key } } ::
    exampleDartSigned :: exampleAuthority :: exampleNewAuthority :: []

/-! ### Codec lemmas -/

theorem pubkeyBytes_length (k : Pubkey) : (pubkeyBytes k).length = 32 :=
  List.length_ofFn k

theorem getD_pubkeyBytes (k : Pubkey) (i : Fin 32) :
    (pubkeyBytes k).getD i.val 0 = k i := by
  rw [pubkeyBytes, List.getD_eq_get?, List.get?_ofFn]
  simp only [List.ofFnNthVal]
  rw [dif_pos i.isLt]
  rfl

theorem readPubkey_pubkeyBytes (k : Pubkey) (rest : List Byte) :
    readPubkey (pubkeyBytes k ++ rest) = .ok (k, rest) := by
  have hlen : 32 ≤ (pubkeyBytes k ++ rest).length := by
    simp [pubkeyBytes]
  rw [readPubkey, if_pos hlen]
  have htake : (pubkeyBytes k ++ rest).take 32 = pubkeyBytes k :=
    List.take_left' (pubkeyBytes_length k)
  have hdrop : (pubkeyBytes k ++ rest).drop 32 = rest :=
    List.drop_left' (pubkeyBytes_length k)
  rw [htake, hdrop]
  have hfun : (fun i : Fin 32 => (pubkeyBytes k).getD i.val 0) = k :=
    funext fun i => getD_pubkeyBytes k i
  rw [hfun]

theorem readPubkey_pubkeyBytes_nil (k : Pubkey) :
    readPubkey (pubkeyBytes k) = .ok (k, []) := by
  have := readPubkey_pubkeyBytes k []
  rwa [List.append_nil] at this

theorem encode_length (r : VaultRecord) : r.encode.length = 65 := by
  simp [VaultRecord.encode, pubkeyBytes]

theorem readPubkey_ok_inv {l : List Byte} {k : Pubkey} {rest : List Byte}
    (h : readPubkey l = .ok (k, rest)) :
    32 ≤ l.length ∧ rest = l.drop 32 := by
  rw [readPubkey] at h
  by_cases hl : 32 ≤ l.length
  · rw [if_pos hl] at h
    simp only [Except.ok.injEq, Prod.mk.injEq] at h
    exact ⟨hl, h.2.symm⟩
  · rw [if_neg hl] at h
    exact absurd h (by simp)

theorem readPubkey_error_inv {l : List Byte} {e : ProgramError}
    (h : readPubkey l = .error e) : e = .BorshIoError := by
  rw [readPubkey] at h
  by_cases hl : 32 ≤ l.length
  · rw [if_pos hl] at h
    exact absurd h (by simp)
  · rw [if_neg hl] at h
    simpa using h.symm

theorem decode_cons (b : Byte) (t : List Byte) :
    VaultRecord.decode (b :: t) =
      match readPubkey t with
      | .error e => .error e
      | .ok (authority, l2) =>
        match readPubkey l2 with
        | .error e => .error e
        | .ok (dart, l3) =>
          if l3 = [] then .ok ⟨b, authority, dart⟩
          else .error .BorshIoError := rfl

theorem decode_encode (r : VaultRecord) : VaultRecord.decode r.encode = .ok r := by
  rw [VaultRecord.encode, decode_cons,
    readPubkey_pubkeyBytes r.authority (pubkeyBytes r.dart)]
  show (match readPubkey (pubkeyBytes r.dart) with
    | Except.error e => (Except.error e : Except ProgramError VaultRecord)
    | Except.ok (dart, l3) =>
      if l3 = [] then
        (Except.ok ⟨r.version, r.authority, dart⟩ : Except ProgramError VaultRecord)
      else Except.error ProgramError.BorshIoError) = Except.ok r
  rw [readPubkey_pubkeyBytes_nil r.dart]
  rfl

theorem decode_ok_length {l : List Byte} {r : VaultRecord}
    (h : VaultRecord.decode l = .ok r) : l.length = 65 := by
  rcases l with _ | ⟨b, t⟩
  · exact absurd h (by simp [VaultRecord.decode, readByte])
  · rw [decode_cons] at h
    split at h
    · exact absurd h (by simp)
    next authority l2 heq =>
      obtain ⟨h1, hl2⟩ := readPubkey_ok_inv heq
      split at h
      · exact absurd h (by simp)
      next dart l3 heq2 =>
        obtain ⟨h2, hl3⟩ := readPubkey_ok_inv heq2
        split at h
        next h3 =>
          have hlen3 := congrArg List.length h3
          rw [hl3] at hlen3
          rw [hl2] at hlen3 h2
          simp only [List.length_drop, List.length_nil] at hlen3 h2
          simp only [List.length_cons]
          omega
        · exact absurd h (by simp)

theorem decode_length_ne {l : List Byte} (h : l.length ≠ 65) :
    VaultRecord.decode l = .error .BorshIoError := by
  rcases l with _ | ⟨b, t⟩
  · rfl
  · have hlen : t.length ≠ 64 := by
      simp only [List.length_cons] at h
      omega
    rw [decode_cons]
    split
    next e heq => rw [readPubkey_error_inv heq]
    next authority l2 heq =>
      obtain ⟨h1, hl2⟩ := readPubkey_ok_inv heq
      split
      next e heq2 => rw [readPubkey_error_inv heq2]
      next dart l3 heq2 =>
        obtain ⟨h2, hl3⟩ := readPubkey_ok_inv heq2
        rw [hl2] at h2
        simp only [List.length_drop] at h2
        have h3 : l3 ≠ [] := by
          intro hc
          have hlen3 := congrArg List.length hc
          rw [hl3, hl2] at hlen3
          simp only [List.length_drop, List.length_nil] at hlen3
          omega
        rw [if_neg h3]

/-! ### Claim theorems: record codec -/

/-- C6: every vault record encodes to exactly 65 bytes, laid out as the
version byte, then the 32 authority bytes, then the 32 custodian bytes,
and decoding the encoding yields the record back. -/
theorem record_codec_roundtrip (r : VaultRecord) :
    r.encode.length = 65 ∧
    r.encode.get? 0 = some r.version ∧
    (∀ i : Fin 32, r.encode.get? (i.val + 1) = some (r.authority i)) ∧
    (∀ i : Fin 32, r.encode.get? (i.val + 33) = some (r.dart i)) ∧
    VaultRecord.decode r.encode = .ok r := by
  refine ⟨encode_length r, rfl, ?_, ?_, decode_encode r⟩
  · intro i
    have hi : i.val < (pubkeyBytes r.authority).length := by
      rw [pubkeyBytes_length]; exact i.isLt
    rw [VaultRecord.encode]
    rw [List.get?_cons_succ, List.get?_append hi, pubkeyBytes,
      List.get?_ofFn, List.ofFnNthVal, dif_pos i.isLt]
  · intro i
    rw [VaultRecord.encode]
    have h33 : i.val + 33 = (i.val + 32) + 1 := by omega
    rw [h33, List.get?_cons_succ]
    have hge : (pubkeyBytes r.authority).length ≤ i.val + 32 := by
      rw [pubkeyBytes_length]; omega
    rw [List.get?_append_right hge, pubkeyBytes_length]
    have hsub : i.val + 32 - 32 = i.val := by omega
    rw [hsub, pubkeyBytes, List.get?_ofFn, List.ofFnNthVal, dif_pos i.isLt]

/-- C7: decoding any byte string shorter than 65 bytes as a vault record
fails with the malformed-encoding error. -/
theorem decode_short_fails {l : List Byte} (h : l.length < 65) :
    VaultRecord.decode l = .error .BorshIoError :=
  decode_length_ne (by omega)

/-- Witness for C7 at the empty byte string. -/
theorem decode_short_fails_witness :
    VaultRecord.decode [] = .error .BorshIoError :=
  decode_short_fails (l := []) (by decide)

/-! ### Claim theorems: instruction codec and error codes -/

/-- C8: instructions encode to the single tag byte - 0 for Initialize,
1 for TransferAuthority, 2 for CloseAccount - with no payload; decoding
fails with the malformed-encoding error on any tag byte outside {0,1,2}
and on any trailing bytes after a valid tag; decoding an encoded
instruction succeeds. -/
theorem instruction_codec (b : Byte) (rest : List Byte) :
    VaultInstruction.encode .Initialize = [(0 : Byte)] ∧
    VaultInstruction.encode .TransferAuthority = [(1 : Byte)] ∧
    VaultInstruction.encode .CloseAccount = [(2 : Byte)] ∧
    (3 ≤ b.val → VaultInstruction.decode (b :: rest) = .error .BorshIoError) ∧
    (rest ≠ [] → VaultInstruction.decode (b :: rest) = .error .BorshIoError) ∧
    (∀ i : VaultInstruction, VaultInstruction.decode i.encode = .ok i) := by
  refine ⟨rfl, rfl, rfl, ?_, ?_, ?_⟩
  · intro h
    have h0 : ¬ b.val = 0 := by omega
    have h1 : ¬ b.val = 1 := by omega
    have h2 : ¬ b.val = 2 := by omega
    simp [VaultInstruction.decode, tagToInstruction, h0, h1, h2]
  · intro h
    cases htag : tagToInstruction b with
    | none => simp [VaultInstruction.decode, htag]
    | some i => simp [VaultInstruction.decode, htag, h]
  · intro i
    cases i <;> rfl

/-- C9: the domain errors surface as the custom numeric codes 0
(IncorrectAuthority) and 1 (Overflow); the two codes are distinct, and
neither coincides with any of the generic host error codes the program
uses. -/
theorem error_code_mapping :
    VaultError.toProgramError .IncorrectAuthority = .Custom 0 ∧
    VaultError.toProgramError .Overflow = .Custom 1 ∧
    VaultError.toProgramError .IncorrectAuthority ≠
      VaultError.toProgramError .Overflow ∧
    (∀ e : VaultError,
      e.toProgramError ≠ .MissingRequiredSignature ∧
      e.toProgramError ≠ .IncorrectProgramId ∧
      e.toProgramError ≠ .AccountAlreadyInitialized ∧
      e.toProgramError ≠ .UninitializedAccount ∧
      e.toProgramError ≠ .NotEnoughAccountKeys ∧
      e.toProgramError ≠ .BorshIoError) := by
  refine ⟨rfl, rfl, by decide, ?_⟩
  intro e
  cases e <;> exact ⟨by decide, by decide, by decide, by decide, by decide, by decide⟩

/-! ### Signer-validation lemmas -/

theorem validate_signer_wrong_key {account : AccountInfo} {key : Pubkey}
    (h : key ≠ account.key) :
    validate_signer account key =
      .error (VaultError.toProgramError .IncorrectAuthority) := by
  rw [validate_signer, if_pos h]

theorem validate_signer_no_signature {account : AccountInfo} {key : Pubkey}
    (h : key = account.key) (h2 : account.is_signer = false) :
    validate_signer account key = .error .MissingRequiredSignature := by
  rw [validate_signer, if_neg (fun hc => hc h), h2]
  rfl

theorem validate_signer_ok_iff (account : AccountInfo) (key : Pubkey) :
    validate_signer account key = .ok () ↔
      (key = account.key ∧ account.is_signer = true) := by
  unfold validate_signer
  cases hs : account.is_signer <;> by_cases h : key = account.key <;>
    simp [h, hs]

/-! ### Handler unfolding equations on explicitly shaped account lists -/

theorem processInitialize_cons (pid : Pubkey) (pda dart authority : AccountInfo)
    (rest : List AccountInfo) :
    processInitialize pid (pda :: dart :: authority :: rest) =
      (if pda.owner ≠ pid then .error .IncorrectProgramId
       else if !dart.is_signer then .error .MissingRequiredSignature
       else
         match VaultRecord.decode pda.data with
         | .error e => .error e
         | .ok record =>
           if record.is_initialized then .error .AccountAlreadyInitialized
           else
             match writeRecord pda.data
                 { record with
                   dart := dart.key
                   authority := authority.key
                   version := VaultRecord.CURRENT_VERSION } with
             | .error e => .error e
             | .ok data' =>
               .ok ({ pda with data := data' } :: dart :: authority :: rest)) :=
  rfl

theorem transfer_authority_cons (pid : Pubkey)
    (pda dart authority new_authority : AccountInfo) (rest : List AccountInfo) :
    transfer_authority pid (pda :: dart :: authority :: new_authority :: rest) =
      (if pda.owner ≠ pid then .error .IncorrectProgramId
       else
         match VaultRecord.decode pda.data with
         | .error e => .error e
         | .ok record =>
           if !record.is_initialized then .error .UninitializedAccount
           else
             match validate_signer dart record.dart with
             | .error e => .error e
             | .ok _ =>
               match validate_signer authority record.authority with
               | .error e => .error e
               | .ok _ =>
                 match writeRecord pda.data
                     { record with authority := new_authority.key } with
                 | .error e => .error e
                 | .ok data' =>
                   .ok ({ pda with data := data' } ::
                     dart :: authority :: new_authority :: rest)) :=
  rfl

theorem close_account_cons (pid : Pubkey) (pda dart authority : AccountInfo)
    (rest : List AccountInfo) :
    close_account pid (pda :: dart :: authority :: rest) =
      (if pda.owner ≠ pid then .error .IncorrectProgramId
       else
         match VaultRecord.decode pda.data with
         | .error e => .error e
         | .ok record =>
           if !record.is_initialized then .error .UninitializedAccount
           else
             match validate_signer dart record.dart with
             | .error e => .error e
             | .ok _ =>
               match validate_signer authority record.authority with
               | .error e => .error e
               | .ok _ =>
                 match checked_add authority.lamports pda.lamports with
                 | none => .error (VaultError.toProgramError .Overflow)
                 | some v =>
                   match writeRecord pda.data record with
                   | .error e => .error e
                   | .ok data' =>
                     .ok ({ pda with lamports := 0, data := data' } ::
                       dart :: { authority with lamports := v } :: rest)) :=
  rfl

/-! ### Helper lemmas about the handler building blocks -/

theorem writeRecord_full {buf : List Byte} (r : VaultRecord)
    (h : buf.length = 65) : writeRecord buf r = .ok r.encode := by
  have hd : buf.drop 65 = [] := List.drop_eq_nil_of_le (by omega)
  simp [writeRecord, encode_length, h, hd]

theorem checked_add_of_lt {a b : Nat} (h : a + b < 2 ^ 64) :
    checked_add a b = some (a + b) := by
  rw [checked_add, if_pos h]

theorem checked_add_of_ge {a b : Nat} (h : ¬ a + b < 2 ^ 64) :
    checked_add a b = none := by
  rw [checked_add, if_neg h]

theorem checked_add_some_inv {a b v : Nat} (h : checked_add a b = some v) :
    a + b < 2 ^ 64 ∧ v = a + b := by
  rw [checked_add] at h
  by_cases hc : a + b < 2 ^ 64
  · rw [if_pos hc] at h
    exact ⟨hc, (Option.some.inj h).symm⟩
  · rw [if_neg hc] at h
    exact absurd h (by simp)

theorem commit_of_not_ok {orig : List AccountInfo}
    {r : Except ProgramError (List AccountInfo)}
    (h : ∀ l', r ≠ .ok l') : commit orig r = orig := by
  cases r with
  | ok l => exact absurd rfl (h l)
  | error e => rfl

/-! ### Success-inversion lemmas for the two dual-signature handlers -/

theorem transfer_authority_ok_inv {pid : Pubkey}
    {pda dart authority new_authority : AccountInfo}
    {rest accounts' : List AccountInfo} {rec : VaultRecord}
    (hdec : VaultRecord.decode pda.data = .ok rec)
    (hok : transfer_authority pid
      (pda :: dart :: authority :: new_authority :: rest) = .ok accounts') :
    pda.owner = pid ∧ rec.is_initialized = true ∧
    validate_signer dart rec.dart = .ok () ∧
    validate_signer authority rec.authority = .ok () ∧
    accounts' =
      { pda with
        data := VaultRecord.encode { rec with authority := new_authority.key } } ::
        dart :: authority :: new_authority :: rest := by
  have hlen : pda.data.length = 65 := decode_ok_length hdec
  have hw := writeRecord_full
    { rec with authority := new_authority.key } hlen
  rw [transfer_authority_cons] at hok
  by_cases hown : pda.owner = pid
  · by_cases hinit : rec.is_initialized = true
    · cases hd : validate_signer dart rec.dart with
      | error e => simp [hown, hdec, hinit, hd] at hok
      | ok u =>
        cases ha : validate_signer authority rec.authority with
        | error e => simp [hown, hdec, hinit, hd, ha] at hok
        | ok u2 =>
          refine ⟨hown, hinit, rfl, rfl, ?_⟩
          simp only [hown, ne_eq, not_true_eq_false, if_false, hdec, hinit,
            Bool.not_true, Bool.false_eq_true, hd, ha, hw] at hok
          rw [hown]
          exact (Except.ok.inj hok).symm
    · simp [hown, hdec, hinit] at hok
  · simp [hown] at hok

theorem close_account_ok_inv {pid : Pubkey} {pda dart authority : AccountInfo}
    {rest accounts' : List AccountInfo} {rec : VaultRecord}
    (hdec : VaultRecord.decode pda.data = .ok rec)
    (hok : close_account pid (pda :: dart :: authority :: rest) = .ok accounts') :
    pda.owner = pid ∧ rec.is_initialized = true ∧
    validate_signer dart rec.dart = .ok () ∧
    validate_signer authority rec.authority = .ok () ∧
    authority.lamports + pda.lamports < 2 ^ 64 ∧
    accounts' =
      { pda with lamports := 0, data := rec.encode } :: dart ::
        { authority with lamports := authority.lamports + pda.lamports } ::
        rest := by
  have hlen : pda.data.length = 65 := decode_ok_length hdec
  have hw := writeRecord_full rec hlen
  rw [close_account_cons] at hok
  by_cases hown : pda.owner = pid
  · by_cases hinit : rec.is_initialized = true
    · cases hd : validate_signer dart rec.dart with
      | error e => simp [hown, hdec, hinit, hd] at hok
      | ok u =>
        cases ha : validate_signer authority rec.authority with
        | error e => simp [hown, hdec, hinit, hd, ha] at hok
        | ok u2 =>
          cases hca : checked_add authority.lamports pda.lamports with
          | none => simp [hown, hdec, hinit, hd, ha, hca] at hok
          | some v =>
            obtain ⟨hbound, hv⟩ := checked_add_some_inv hca
            refine ⟨hown, hinit, rfl, rfl, hbound, ?_⟩
            simp only [hown, ne_eq, not_true_eq_false, if_false, hdec, hinit,
              Bool.not_true, Bool.false_eq_true, hd, ha, hca, hw] at hok
            rw [hown]
            have hinj := Except.ok.inj hok
            rw [hv] at hinj
            exact hinj.symm
    · simp [hown, hdec, hinit] at hok
  · simp [hown] at hok

theorem close_account_run (pid : Pubkey) (pda dart authority : AccountInfo)
    (rest : List AccountInfo) (rec : VaultRecord)
    (hown : pda.owner = pid)
    (hdec : VaultRecord.decode pda.data = .ok rec)
    (hinit : rec.is_initialized = true)
    (hd : validate_signer dart rec.dart = .ok ())
    (ha : validate_signer authority rec.authority = .ok ()) :
    close_account pid (pda :: dart :: authority :: rest) =
      match checked_add authority.lamports pda.lamports with
      | none => .error (VaultError.toProgramError .Overflow)
      | some v =>
        .ok ({ pda with lamports := 0, data := rec.encode } :: dart ::
          { authority with lamports := v } :: rest) := by
  have hlen : pda.data.length = 65 := decode_ok_length hdec
  have hw := writeRecord_full rec hlen
  rw [close_account_cons]
  simp only [hown, ne_eq, not_true_eq_false, if_false, hdec, hinit,
    Bool.not_true, Bool.false_eq_true, hd, ha, hw]

/-! ### Claim theorems: processor -/

/-- C2 counterexample: a program-owned, already-initialized record slot
together with a custodian account whose signer flag is unset makes
Initialize fail with MissingRequiredSignature, not with
AccountAlreadyInitialized — so the claimed error is not independent of the
custodian's signer flag. -/
theorem initialize_signer_check_precedes_cex :
    examplePda.owner = examplePid ∧
    VaultRecord.decode examplePda.data = .ok exampleRecord ∧
    exampleRecord.is_initialized = true ∧
    exampleDart.is_signer = false ∧
    processInitialize examplePid [examplePda, exampleDart, exampleAuthority] =
      .error .MissingRequiredSignature ∧
    processInitialize examplePid [examplePda, exampleDart, exampleAuthority] ≠
      .error .AccountAlreadyInitialized := by
  refine ⟨rfl, decode_encode exampleRecord, rfl, rfl, ?_, ?_⟩ <;>
    rw [processInitialize_cons] <;>
    simp [show examplePda.owner = examplePid from rfl,
      show exampleDart.is_signer = false from rfl]

/-- C2 (amended): on a program-owned record slot holding an initialized
record, Initialize fails with AccountAlreadyInitialized whenever the
custodian's signer flag is set (whatever the other accounts' flags are),
and fails with MissingRequiredSignature when the custodian did not sign:
the custodian signature check runs before the initialization check. -/
theorem initialize_already_initialized_amended (pid : Pubkey)
    (pda dart authority : AccountInfo) (rest : List AccountInfo)
    (rec : VaultRecord)
    (howner : pda.owner = pid)
    (hdec : VaultRecord.decode pda.data = .ok rec)
    (hinit : rec.is_initialized = true) :
    (dart.is_signer = true →
      processInitialize pid (pda :: dart :: authority :: rest) =
        .error .AccountAlreadyInitialized) ∧
    (dart.is_signer = false →
      processInitialize pid (pda :: dart :: authority :: rest) =
        .error .MissingRequiredSignature) := by
  refine ⟨fun hs => ?_, fun hs => ?_⟩ <;>
    rw [processInitialize_cons] <;> simp [howner, hdec, hinit, hs]

/-- Witness for the amended C2 at concrete accounts: custodian signed,
record initialized, so Initialize reports AccountAlreadyInitialized. -/
theorem initialize_already_initialized_witness :
    processInitialize examplePid
      (examplePda :: exampleDartSigned :: exampleAuthority :: []) =
      .error .AccountAlreadyInitialized :=
  (initialize_already_initialized_amended examplePid examplePda
    exampleDartSigned exampleAuthority [] exampleRecord rfl
    (decode_encode exampleRecord) rfl).1 rfl

/-- C4: the shared primitive validate_signer fails with the custom
IncorrectAuthority error on an identity mismatch, otherwise fails with
MissingRequiredSignature when the account did not sign, otherwise
succeeds; and both TransferAuthority and CloseAccount run the custodian's
check strictly before the stored authority's, so a failing custodian
check fixes the call's error whatever the authority account holds. -/
theorem validate_signer_spec_and_order :
    (∀ (account : AccountInfo) (key : Pubkey), key ≠ account.key →
      validate_signer account key =
        .error (VaultError.toProgramError .IncorrectAuthority)) ∧
    (∀ (account : AccountInfo) (key : Pubkey), key = account.key →
      account.is_signer = false →
      validate_signer account key = .error .MissingRequiredSignature) ∧
    (∀ (account : AccountInfo) (key : Pubkey), key = account.key →
      account.is_signer = true →
      validate_signer account key = .ok ()) ∧
    (∀ (pid : Pubkey) (pda dart authority new_authority : AccountInfo)
      (rest : List AccountInfo) (rec : VaultRecord) (e : ProgramError),
      pda.owner = pid →
      VaultRecord.decode pda.data = .ok rec →
      rec.is_initialized = true →
      validate_signer dart rec.dart = .error e →
      transfer_authority pid
        (pda :: dart :: authority :: new_authority :: rest) = .error e) ∧
    (∀ (pid : Pubkey) (pda dart authority : AccountInfo)
      (rest : List AccountInfo) (rec : VaultRecord) (e : ProgramError),
      pda.owner = pid →
      VaultRecord.decode pda.data = .ok rec →
      rec.is_initialized = true →
      validate_signer dart rec.dart = .error e →
      close_account pid (pda :: dart :: authority :: rest) = .error e) := by
  refine ⟨?_, ?_, ?_, ?_, ?_⟩
  · intro account key h
    exact validate_signer_wrong_key h
  · intro account key h h2
    exact validate_signer_no_signature h h2
  · intro account key h h2
    exact (validate_signer_ok_iff account key).mpr ⟨h, h2⟩
  · intro pid pda dart authority new_authority rest rec e howner hdec hinit hverr
    rw [transfer_authority_cons]
    simp [howner, hdec, hinit, hverr]
  · intro pid pda dart authority rest rec e howner hdec hinit hverr
    rw [close_account_cons]
    simp [howner, hdec, hinit, hverr]

/-- C5: a successful TransferAuthority call implies that both the stored
custodian and the stored authority presented matching identities with
their signer flags set, and that the record slot afterwards stores the
record with the new authority's key as authority and the custodian
unchanged. -/
theorem transfer_authority_success (pid : Pubkey)
    (pda dart authority new_authority : AccountInfo)
    (rest accounts' : List AccountInfo) (rec : VaultRecord)
    (hdec : VaultRecord.decode pda.data = .ok rec)
    (hok : transfer_authority pid
      (pda :: dart :: authority :: new_authority :: rest) = .ok accounts') :
    dart.key = rec.dart ∧ dart.is_signer = true ∧
    authority.key = rec.authority ∧ authority.is_signer = true ∧
    ∃ pda' rec', accounts'.get? 0 = some pda' ∧
      VaultRecord.decode pda'.data = .ok rec' ∧
      rec'.authority = new_authority.key ∧
      rec'.dart = rec.dart := by
  obtain ⟨hown, hinit, hd, ha, hacc⟩ := transfer_authority_ok_inv hdec hok
  obtain ⟨hdk, hds⟩ := (validate_signer_ok_iff dart rec.dart).mp hd
  obtain ⟨hak, has⟩ := (validate_signer_ok_iff authority rec.authority).mp ha
  subst hacc
  exact ⟨hdk.symm, hds, hak.symm, has, _,
    { rec with authority := new_authority.key }, rfl, decode_encode _, rfl, rfl⟩

/-- C3: the record state machine has no path back to uninitialized and
never changes the custodian: after any successful TransferAuthority or
CloseAccount on a slot whose stored record decodes, the slot still stores
a record with version CURRENT_VERSION and with the custodian it stored
before the call. -/
theorem record_state_machine_invariant :
    (∀ (pid : Pubkey) (pda dart authority new_authority : AccountInfo)
      (rest accounts' : List AccountInfo) (rec : VaultRecord),
      VaultRecord.decode pda.data = .ok rec →
      transfer_authority pid
        (pda :: dart :: authority :: new_authority :: rest) = .ok accounts' →
      ∃ pda' rec', accounts'.get? 0 = some pda' ∧
        VaultRecord.decode pda'.data = .ok rec' ∧
        rec'.version = VaultRecord.CURRENT_VERSION ∧
        rec'.dart = rec.dart) ∧
    (∀ (pid : Pubkey) (pda dart authority : AccountInfo)
      (rest accounts' : List AccountInfo) (rec : VaultRecord),
      VaultRecord.decode pda.data = .ok rec →
      close_account pid (pda :: dart :: authority :: rest) = .ok accounts' →
      ∃ pda' rec', accounts'.get? 0 = some pda' ∧
        VaultRecord.decode pda'.data = .ok rec' ∧
        rec'.version = VaultRecord.CURRENT_VERSION ∧
        rec'.dart = rec.dart) := by
  constructor
  · intro pid pda dart authority new_authority rest accounts' rec hdec hok
    obtain ⟨hown, hinit, hd, ha, hacc⟩ := transfer_authority_ok_inv hdec hok
    have hv : rec.version = VaultRecord.CURRENT_VERSION := by
      simpa [VaultRecord.is_initialized] using hinit
    subst hacc
    exact ⟨_, { rec with authority := new_authority.key }, rfl,
      decode_encode _, hv, rfl⟩
  · intro pid pda dart authority rest accounts' rec hdec hok
    obtain ⟨hown, hinit, hd, ha, hbound, hacc⟩ := close_account_ok_inv hdec hok
    have hv : rec.version = VaultRecord.CURRENT_VERSION := by
      simpa [VaultRecord.is_initialized] using hinit
    subst hacc
    exact ⟨_, rec, rfl, decode_encode rec, hv, rfl⟩

/-- Witness for C5: the concrete transfer succeeds and the theorem's
conclusions hold at its concrete output. -/
theorem transfer_authority_success_witness :
    exampleDartSigned.key = exampleRecord.dart ∧
    exampleDartSigned.is_signer = true ∧
    exampleAuthority.key = exampleRecord.authority ∧
    exampleAuthority.is_signer = true ∧
    ∃ pda' rec', exampleTransferResult.get? 0 = some pda' ∧
      VaultRecord.decode pda'.data = .ok rec' ∧
      rec'.authority = exampleNewAuthority.key ∧
      rec'.dart = exampleRecord.dart :=
  transfer_authority_success examplePid examplePda exampleDartSigned
    exampleAuthority exampleNewAuthority [] exampleTransferResult exampleRecord
    (decode_encode exampleRecord) (by decide)

/-- C1: with a program-owned, initialized record slot and both signer
checks passing, CloseAccount's balance move is atomic: when the sum of
the two balances does not fit in 64 bits the call fails with the custom
Overflow error and the host commits the original accounts unchanged (in
particular the source balance is untouched); otherwise the call succeeds,
zeroing the slot's balance and crediting the authority with exactly the
sum — both mutations happen together or not at all. -/
theorem close_account_overflow_atomic (pid : Pubkey)
    (pda dart authority : AccountInfo) (rest : List AccountInfo)
    (rec : VaultRecord)
    (howner : pda.owner = pid)
    (hdec : VaultRecord.decode pda.data = .ok rec)
    (hinit : rec.is_initialized = true)
    (hdart : validate_signer dart rec.dart = .ok ())
    (hauth : validate_signer authority rec.authority = .ok ()) :
    (2 ^ 64 ≤ authority.lamports + pda.lamports →
      close_account pid (pda :: dart :: authority :: rest) =
        .error (VaultError.toProgramError .Overflow) ∧
      commit (pda :: dart :: authority :: rest)
        (close_account pid (pda :: dart :: authority :: rest)) =
        pda :: dart :: authority :: rest) ∧
    (authority.lamports + pda.lamports < 2 ^ 64 →
      close_account pid (pda :: dart :: authority :: rest) =
        .ok ({ pda with lamports := 0, data := rec.encode } :: dart ::
          { authority with lamports := authority.lamports + pda.lamports } ::
          rest)) := by
  have hrun := close_account_run pid pda dart authority rest rec howner hdec
    hinit hdart hauth
  constructor
  · intro hge
    have hca : checked_add authority.lamports pda.lamports = none :=
      checked_add_of_ge (by omega)
    rw [hca] at hrun
    refine ⟨hrun, ?_⟩
    rw [hrun]
    rfl
  · intro hlt
    have hca := checked_add_of_lt hlt
    rw [hca] at hrun
    exact hrun

/-- Witness for C1's overflow branch: a near-maximum destination balance
makes the close fail with Overflow and commit the original accounts. -/
theorem close_account_overflow_atomic_witness :
    close_account examplePid
      (examplePda :: exampleDartSigned :: exampleRichAuthority :: []) =
      .error (VaultError.toProgramError .Overflow) ∧
    commit (examplePda :: exampleDartSigned :: exampleRichAuthority :: [])
      (close_account examplePid
        (examplePda :: exampleDartSigned :: exampleRichAuthority :: [])) =
      examplePda :: exampleDartSigned :: exampleRichAuthority :: [] :=
  (close_account_overflow_atomic examplePid examplePda exampleDartSigned
    exampleRichAuthority [] exampleRecord rfl (decode_encode exampleRecord)
    rfl (by decide) (by decide)).1 (by decide)

theorem handlers_fail_of_oversized {pid : Pubkey} {accounts : List AccountInfo}
    {pda : AccountInfo} (h0 : accounts.get? 0 = some pda)
    (hbig : 65 < pda.data.length) :
    (∀ l', processInitialize pid accounts ≠ .ok l') ∧
    (∀ l', transfer_authority pid accounts ≠ .ok l') ∧
    (∀ l', close_account pid accounts ≠ .ok l') := by
  have hdec : VaultRecord.decode pda.data = .error .BorshIoError :=
    decode_length_ne (by omega)
  rcases accounts with _ | ⟨a0, rest⟩
  · exact absurd h0 (by simp)
  · have ha0 : a0 = pda := by simpa using h0
    subst ha0
    rcases rest with _ | ⟨a1, rest⟩
    · refine ⟨?_, ?_, ?_⟩ <;> intro l' hc <;>
        simp [processInitialize, transfer_authority, close_account,
          nextAccount] at hc
    · rcases rest with _ | ⟨a2, rest⟩
      · refine ⟨?_, ?_, ?_⟩ <;> intro l' hc <;>
          simp [processInitialize, transfer_authority, close_account,
            nextAccount] at hc
      · rcases rest with _ | ⟨a3, rest⟩
        · refine ⟨?_, ?_, ?_⟩
          · intro l' hc
            rw [processInitialize_cons] at hc
            by_cases hown : a0.owner = pid
            · by_cases hsig : a1.is_signer = true
              · simp [hown, hsig, hdec] at hc
              · simp [hown, hsig] at hc
            · simp [hown] at hc
          · intro l' hc
            simp [transfer_authority, nextAccount] at hc
          · intro l' hc
            rw [close_account_cons] at hc
            by_cases hown : a0.owner = pid
            · simp [hown, hdec] at hc
            · simp [hown] at hc
        · refine ⟨?_, ?_, ?_⟩
          · intro l' hc
            rw [processInitialize_cons] at hc
            by_cases hown : a0.owner = pid
            · by_cases hsig : a1.is_signer = true
              · simp [hown, hsig, hdec] at hc
              · simp [hown, hsig] at hc
            · simp [hown] at hc
          · intro l' hc
            rw [transfer_authority_cons] at hc
            by_cases hown : a0.owner = pid
            · simp [hown, hdec] at hc
            · simp [hown] at hc
          · intro l' hc
            rw [close_account_cons] at hc
            by_cases hown : a0.owner = pid
            · simp [hown, hdec] at hc
            · simp [hown] at hc

/-- C10: the record decoder is strict about length — a buffer decodes
only when it is exactly 65 bytes, and any longer buffer (an all-zero one
of the wrong size included) fails with the malformed-encoding error — so
on any account list whose record slot carries an oversized buffer all
three handlers fail and the host commits every account unchanged. -/
theorem oversized_record_buffer_rejected :
    (∀ (l : List Byte) (r : VaultRecord),
      VaultRecord.decode l = .ok r → l.length = 65) ∧
    (∀ l : List Byte, 65 < l.length →
      VaultRecord.decode l = .error .BorshIoError) ∧
    (∀ (pid : Pubkey) (accounts : List AccountInfo) (pda : AccountInfo),
      accounts.get? 0 = some pda → 65 < pda.data.length →
      (∀ l', processInitialize pid accounts ≠ .ok l') ∧
      (∀ l', transfer_authority pid accounts ≠ .ok l') ∧
      (∀ l', close_account pid accounts ≠ .ok l') ∧
      commit accounts (processInitialize pid accounts) = accounts ∧
      commit accounts (transfer_authority pid accounts) = accounts ∧
      commit accounts (close_account pid accounts) = accounts) := by
  refine ⟨fun l r h => decode_ok_length h,
    fun l h => decode_length_ne (by omega), ?_⟩
  intro pid accounts pda h0 hbig
  obtain ⟨h1, h2, h3⟩ := handlers_fail_of_oversized h0 hbig
  exact ⟨h1, h2, h3, commit_of_not_ok h1, commit_of_not_ok h2,
    commit_of_not_ok h3⟩

end Vault
